import Mathlib

/-!
Verification of the resolution-and-aggregation engine in
ipv6_in_real_life/data_structures.py, as a shallow embedding.

DNS lookups are modelled by a resolver function from a hostname and a
record type to either a list of address strings or a DNS error.  The
process-wide metrics singleton is modelled by explicit state passing of a
Metrics record.  Python dictionaries (which preserve insertion order) are
modelled as association lists; fallible Python operations (division by
zero, missing keys, attribute access on None) return Except values.
-/

/-- Kinds of runtime errors the embedded code can raise. -/
inductive PyError
  | zeroDivisionError
  | keyError
  | typeError
  | attributeError
deriving DecidableEq

/-- A DNS lookup failure (aiodns.error.DNSError). -/
inductive DnsError
  | dnsError
deriving DecidableEq

/-- DNS record types queried by the code. -/
inductive RecordType
  | A
  | AAAA
deriving DecidableEq

/-- The resolver client: a query returns the list of address strings of the
answer records, or fails with a DNS error. -/
def Resolver : Type := String → RecordType → Except DnsError (List String)

/-- The four monotone counters of the observability module. -/
structure Metrics where
  ipv4Success : Nat
  ipv4Failure : Nat
  ipv6Success : Nat
  ipv6Failure : Nat
deriving DecidableEq

def Metrics.count_ipv4_resolution_success (m : Metrics) : Metrics :=
  { m with ipv4Success := m.ipv4Success + 1 }

def Metrics.count_ipv4_resolution_failure (m : Metrics) : Metrics :=
  { m with ipv4Failure := m.ipv4Failure + 1 }

def Metrics.count_ipv6_resolution_success (m : Metrics) : Metrics :=
  { m with ipv6Success := m.ipv6Success + 1 }

def Metrics.count_ipv6_resolution_failure (m : Metrics) : Metrics :=
  { m with ipv6Failure := m.ipv6Failure + 1 }

/-- Textual prefix test on strings, as the Python startswith method:
true when the characters of pre are an initial segment of those of s. -/
def strStartsWith (s pre : String) : Bool :=
  pre.data.isPrefixOf s.data

/-- Host: a DNS name with two tri-state flags (None = not yet resolved). -/
structure Host where
  name : String
  has_ipv4_address : Option Bool := none
  has_ipv6_address : Option Bool := none
deriving DecidableEq

/-- Host.resolve: query A, then AAAA, absorbing DNS errors into false flags
plus failure counters; on AAAA success filter out addresses textually
prefixed with the IPv4-mapped marker before judging IPv6 presence. -/
def Host.resolve (h : Host) (resolver : Resolver) (m : Metrics) :
    Host × Metrics :=
  let step4 :
      Bool × Metrics :=
    match resolver h.name RecordType.A with
    | Except.error _ => (false, m.count_ipv4_resolution_failure)
    | Except.ok _ => (true, m.count_ipv4_resolution_success)
  let step6 :
      Bool × Metrics :=
    match resolver h.name RecordType.AAAA with
    | Except.error _ => (false, step4.2.count_ipv6_resolution_failure)
    | Except.ok all_results =>
        let valid_ipv6 := all_results.filter fun r => !(strStartsWith r "::ffff:")
        (!valid_ipv6.isEmpty, step4.2.count_ipv6_resolution_success)
  ({ h with
      has_ipv4_address := some step4.1
      has_ipv6_address := some step6.1 },
    step6.2)

/-- Truthiness of a Python Optional[bool]: only True is truthy. -/
def optTruthy : Option Bool → Bool
  | some true => true
  | _ => false

/-- Python conjunction x and y where x is an Optional[bool] and y a bool:
a falsy left operand is returned unchanged, otherwise the right one. -/
def pyAnd : Option Bool → Bool → Option Bool
  | none, _ => none
  | some false, _ => some false
  | some true, b => some b

/-- Entity: an organization with a primary host, secondary hosts and a
tri-state readiness verdict. -/
structure Entity where
  country : String
  category : String
  name : String
  main_host : Host
  additional_hosts : List Host
  ipv6_ready : Option Bool := none
deriving DecidableEq

/-- Resolve a list of hosts, threading the metrics state through
(the concurrent gather touches disjoint hosts, so this linearization is
observationally faithful). -/
def resolveHosts : List Host → Resolver → Metrics → List Host × Metrics
  | [], _, m => ([], m)
  | h :: t, r, m =>
    let p := h.resolve r m
    let q := resolveHosts t r p.2
    (p.1 :: q.1, q.2)

/-- Entity.resolve: resolve the main host, then all additional hosts, then
set ipv6_ready to the Python conjunction of the main flag with the
truthiness of every additional flag. -/
def Entity.resolve (e : Entity) (r : Resolver) (m : Metrics) :
    Entity × Metrics :=
  let p := e.main_host.resolve r m
  let q := resolveHosts e.additional_hosts r p.2
  ({ e with
      main_host := p.1
      additional_hosts := q.1
      ipv6_ready :=
        pyAnd p.1.has_ipv6_address
          (q.1.all fun h => optTruthy h.has_ipv6_address) },
    q.2)

/-- Category: a tag together with its registered entities, in order. -/
structure Category where
  category : String
  entities : List Entity := []
deriving DecidableEq

def Category.register (c : Category) (e : Entity) : Category :=
  { c with entities := c.entities ++ [e] }

/-- ready_count: sum of 1 over entities whose ipv6_ready is truthy. -/
def Category.ready_count (c : Category) : Nat :=
  c.entities.countP fun e => optTruthy e.ipv6_ready

def Category.total_count (c : Category) : Nat :=
  c.entities.length

/-- Round a rational to the nearest integer, ties to the even neighbor
(the rounding used when Python formats a ratio with .0%). -/
def roundHalfEven (q : ℚ) : ℤ :=
  let f := q.floor
  let frac := q - (f : ℚ)
  if frac < 1 / 2 then f
  else if 1 / 2 < frac then f + 1
  else if f % 2 = 0 then f else f + 1

/-- Format a ratio as an integer percentage string, as .0% does. -/
def formatPercent (q : ℚ) : String :=
  toString (roundHalfEven (q * 100)) ++ "%"

/-- ready_percentage: the ready ratio formatted as an integer percentage;
the division raises ZeroDivisionError when the category is empty. -/
def Category.ready_percentage (c : Category) : Except PyError String :=
  if c.total_count = 0 then Except.error PyError.zeroDivisionError
  else
    Except.ok (formatPercent ((c.ready_count : ℚ) / (c.total_count : ℚ)))

/-- Lookup in an insertion-ordered association list (dict indexing). -/
def dictGet {α : Type} : List (String × α) → String → Option α
  | [], _ => none
  | (k, v) :: t, key => if k = key then some v else dictGet t key

/-- Replace the value stored under a key, leaving its position unchanged
(dict item assignment for a present key). -/
def setEntry {α : Type} (l : List (String × α)) (k : String) (f : α → α) :
    List (String × α) :=
  l.map fun p => (p.1, if p.1 = k then f p.2 else p.2)

/-- CountryData: a country code with its categories, keyed by tag. -/
structure CountryData where
  country_code : String
  categories : List (String × Category) := []
deriving DecidableEq

/-- country_name: the sentinel code xx maps to a fixed literal; any other
code is looked up in the external country collaborator, and a miss raises
(attribute access on None). -/
def CountryData.country_name (cd : CountryData)
    (countries : String → Option String) : Except PyError String :=
  if cd.country_code = "xx" then Except.ok "Validation Test"
  else
    match countries cd.country_code with
    | none => Except.error PyError.attributeError
    | some n => Except.ok n

/-- register: create the category on first use, then append the entity. -/
def CountryData.register (cd : CountryData) (e : Entity) : CountryData :=
  let cats :=
    if (dictGet cd.categories e.category).isNone then
      cd.categories ++ [(e.category, { category := e.category : Category })]
    else cd.categories
  { cd with categories := setEntry cats e.category fun c => c.register e }

/-- A JSON value, as far as the input records need. -/
inductive JVal
  | str : String → JVal
  | arr : List JVal → JVal

/-- A raw input record: a JSON object. -/
def Record : Type := List (String × JVal)

def asStr : JVal → Except PyError String
  | JVal.str s => Except.ok s
  | _ => Except.error PyError.typeError

/-- Extract every element of a JSON array as a string, in order. -/
def asStrList : List JVal → Except PyError (List String)
  | [] => Except.ok []
  | v :: t => do
    let s ← asStr v
    let rest ← asStrList t
    Except.ok (s :: rest)

/-- Entity.from_json: main_host, country and category are required keys;
name defaults to the main host name; additional_hosts defaults to empty. -/
def Entity.from_json (j : Record) : Except PyError Entity := do
  let mainName ←
    match dictGet j "main_host" with
    | none => Except.error PyError.keyError
    | some v => asStr v
  let main_host : Host := { name := mainName }
  let country ←
    match dictGet j "country" with
    | none => Except.error PyError.keyError
    | some v => asStr v
  let category ←
    match dictGet j "category" with
    | none => Except.error PyError.keyError
    | some v => asStr v
  let name ←
    match dictGet j "name" with
    | none => Except.ok main_host.name
    | some v => asStr v
  let additional ←
    match dictGet j "additional_hosts" with
    | none => Except.ok []
    | some (JVal.arr l) => asStrList l
    | some _ => Except.error PyError.typeError
  Except.ok
    { country := country
      category := category
      name := name
      main_host := main_host
      additional_hosts := additional.map fun h => { name := h } }

/-- Source: the root object, mapping country codes to country data. -/
structure Source where
  countries_data : List (String × CountryData) := []
  last_resolved : Option Nat := none
deriving DecidableEq

/-- The loop body of extend_from_json after parsing one record: create the
country node on first use, then register the entity under it. -/
def Source.register_entity (s : Source) (e : Entity) : Source :=
  let cs :=
    if (dictGet s.countries_data e.country).isNone then
      s.countries_data ++ [(e.country, { country_code := e.country : CountryData })]
    else s.countries_data
  { s with countries_data := setEntry cs e.country fun cd => cd.register e }

/-- extend_from_json: parse each record and register the entity. -/
def Source.extend_from_json (s : Source) : List Record → Except PyError Source
  | [] => Except.ok s
  | r :: t =>
    match Entity.from_json r with
    | Except.error err => Except.error err
    | Except.ok e => (s.register_entity e).extend_from_json t

def resolveEntities : List Entity → Resolver → Metrics → List Entity × Metrics
  | [], _, m => ([], m)
  | e :: t, r, m =>
    let p := e.resolve r m
    let q := resolveEntities t r p.2
    (p.1 :: q.1, q.2)

def resolveCategories :
    List (String × Category) → Resolver → Metrics →
      List (String × Category) × Metrics
  | [], _, m => ([], m)
  | (k, c) :: t, r, m =>
    let p := resolveEntities c.entities r m
    let q := resolveCategories t r p.2
    ((k, { c with entities := p.1 }) :: q.1, q.2)

def resolveCountries :
    List (String × CountryData) → Resolver → Metrics →
      List (String × CountryData) × Metrics
  | [], _, m => ([], m)
  | (k, cd) :: t, r, m =>
    let p := resolveCategories cd.categories r m
    let q := resolveCountries t r p.2
    ((k, { cd with categories := p.1 }) :: q.1, q.2)

/-- resolve_all: resolve every entity of the whole tree, then record the
completion timestamp. -/
def Source.resolve_all (s : Source) (r : Resolver) (now : Nat) (m : Metrics) :
    Source × Metrics :=
  let p := resolveCountries s.countries_data r m
  ({ countries_data := p.1, last_resolved := some now }, p.2)

/-! Definitions supporting the whole-tree and registration results,
and concrete fixtures used by closed instantiations. -/

/-- A host whose two flags are definite (no longer unknown). -/
def Host.definite (h : Host) : Bool :=
  (h.has_ipv4_address).isSome && (h.has_ipv6_address).isSome

/-- An entity whose verdict and every owned host flag are definite. -/
def Entity.definite (e : Entity) : Bool :=
  (e.ipv6_ready).isSome && e.main_host.definite &&
    e.additional_hosts.all Host.definite

def mZero : Metrics := ⟨0, 0, 0, 0⟩

def wResolver : Resolver := fun _ rt =>
  match rt with
  | RecordType.A => Except.ok ["93.184.216.34"]
  | RecordType.AAAA => Except.ok ["2606:2800:220:1::1"]

def wEntity : Entity :=
  { country := "xx", category := "c", name := "example.com",
    main_host := { name := "example.com" }, additional_hosts := [] }

def wEntityRes : Entity :=
  { country := "xx", category := "c", name := "example.com",
    main_host := { name := "example.com", has_ipv4_address := some true,
                   has_ipv6_address := some true },
    additional_hosts := [], ipv6_ready := some true }

def wSource : Source :=
  { countries_data :=
      [("xx", { country_code := "xx",
                categories :=
                  [("c", { category := "c", entities := [wEntity] })] })] }

/-- The entity list stored under a country code and category tag, empty
when either node is absent. -/
def entitiesAt (s : Source) (code tag : String) : List Entity :=
  match dictGet s.countries_data code with
  | none => []
  | some cd =>
    match dictGet cd.categories tag with
    | none => []
    | some c => c.entities

/-- Tree growth relation: every country present in s is still present in
t, every category under it is still present, and its entity list has only
been extended at the end. -/
def preservesTree (s t : Source) : Prop :=
  ∀ code cd, dictGet s.countries_data code = some cd →
    ∃ cd', dictGet t.countries_data code = some cd' ∧
      ∀ tag c, dictGet cd.categories tag = some c →
        ∃ c', dictGet cd'.categories tag = some c' ∧
          c.entities <+: c'.entities

def wRecord : Record :=
  [("country", JVal.str "xx"), ("category", JVal.str "c"),
   ("main_host", JVal.str "b.example.com")]

def wEntityB : Entity :=
  { country := "xx", category := "c", name := "b.example.com",
    main_host := { name := "b.example.com" }, additional_hosts := [] }

def wSourceExt : Source :=
  { countries_data :=
      [("xx", { country_code := "xx",
                categories :=
                  [("c", { category := "c",
                           entities := [wEntity, wEntityB] })] })] }

/-! Host-level results. -/

lemma hostResolve_v4_isSome (h : Host) (r : Resolver) (m : Metrics) :
    ((h.resolve r m).1.has_ipv4_address).isSome = true := by
  cases hA : r h.name RecordType.A <;> cases hB : r h.name RecordType.AAAA <;>
    simp [Host.resolve, hA, hB]

lemma hostResolve_v6_isSome (h : Host) (r : Resolver) (m : Metrics) :
    ((h.resolve r m).1.has_ipv6_address).isSome = true := by
  cases hA : r h.name RecordType.A <;> cases hB : r h.name RecordType.AAAA <;>
    simp [Host.resolve, hA, hB]

/-- C1: when the AAAA query succeeds, has_ipv6_address is true iff some
returned address is not textually prefixed with the marker; when every
address carries the marker the flag is false; and the IPv6-success counter
is incremented regardless of what the filter keeps. -/
theorem host_resolve_aaaa_filter (h : Host) (r : Resolver) (m : Metrics)
    (addrs : List String)
    (hq : r h.name RecordType.AAAA = Except.ok addrs) :
    ((h.resolve r m).1.has_ipv6_address = some true ↔
       ∃ a ∈ addrs, strStartsWith a "::ffff:" = false) ∧
    ((∀ a ∈ addrs, strStartsWith a "::ffff:" = true) →
       (h.resolve r m).1.has_ipv6_address = some false) ∧
    (h.resolve r m).2.ipv6Success = m.ipv6Success + 1 := by
  cases hA : r h.name RecordType.A <;>
    simp [Host.resolve, hA, hq, Metrics.count_ipv4_resolution_success,
      Metrics.count_ipv4_resolution_failure,
      Metrics.count_ipv6_resolution_success, List.isEmpty_iff,
      List.filter_eq_nil_iff, List.eq_nil_iff_forall_not_mem]

/-- C1 witness at a concrete host, resolver and metrics state. -/
theorem host_resolve_aaaa_filter_witness :
    (({ name := "h" } : Host).resolve
        (fun _ rt =>
          match rt with
          | RecordType.A => Except.ok ["1.2.3.4"]
          | RecordType.AAAA => Except.ok ["::ffff:1.2.3.4", "2001:db8::1"])
        ⟨0, 0, 0, 0⟩).1.has_ipv6_address = some true :=
  (host_resolve_aaaa_filter { name := "h" } _ ⟨0, 0, 0, 0⟩
    ["::ffff:1.2.3.4", "2001:db8::1"] rfl).1.mpr
    ⟨"2001:db8::1", by decide⟩

/-- C3: Host.resolve is total and absorbs lookup errors: whatever the two
query outcomes are, both flags end up definite; an A error yields a false
IPv4 flag plus an IPv4-failure count, an AAAA error a false IPv6 flag plus
an IPv6-failure count; and the IPv6 outcome depends only on the AAAA
answer, never on the A step. -/
theorem host_resolve_never_fails (h : Host) (r : Resolver) (m : Metrics) :
    ((h.resolve r m).1.has_ipv4_address).isSome = true ∧
    ((h.resolve r m).1.has_ipv6_address).isSome = true ∧
    (∀ err, r h.name RecordType.A = Except.error err →
       (h.resolve r m).1.has_ipv4_address = some false ∧
       (h.resolve r m).2.ipv4Failure = m.ipv4Failure + 1) ∧
    (∀ err, r h.name RecordType.AAAA = Except.error err →
       (h.resolve r m).1.has_ipv6_address = some false ∧
       (h.resolve r m).2.ipv6Failure = m.ipv6Failure + 1) ∧
    (∀ r2 : Resolver, r2 h.name RecordType.AAAA = r h.name RecordType.AAAA →
       (h.resolve r2 m).1.has_ipv6_address =
         (h.resolve r m).1.has_ipv6_address) := by
  refine ⟨hostResolve_v4_isSome h r m, hostResolve_v6_isSome h r m, ?_, ?_, ?_⟩
  · intro err hA
    cases hB : r h.name RecordType.AAAA <;>
      simp [Host.resolve, hA, hB, Metrics.count_ipv4_resolution_failure,
        Metrics.count_ipv6_resolution_failure,
        Metrics.count_ipv6_resolution_success]
  · intro err hB
    cases hA : r h.name RecordType.A <;>
      simp [Host.resolve, hA, hB, Metrics.count_ipv4_resolution_failure,
        Metrics.count_ipv4_resolution_success,
        Metrics.count_ipv6_resolution_failure]
  · intro r2 hsame
    cases hA : r h.name RecordType.A <;>
      cases hA2 : r2 h.name RecordType.A <;>
      cases hB : r h.name RecordType.AAAA <;>
      simp [Host.resolve, hA, hA2, hB, hsame]

/-- C3 witness: a concrete host whose A query succeeds and whose AAAA
query fails gets a definite false IPv6 flag and an IPv6-failure count. -/
theorem host_resolve_never_fails_witness :
    (({ name := "h" } : Host).resolve
        (fun _ rt =>
          match rt with
          | RecordType.A => Except.ok ["1.2.3.4"]
          | RecordType.AAAA => Except.error DnsError.dnsError)
        ⟨0, 0, 0, 0⟩).1.has_ipv6_address = some false ∧
    (({ name := "h" } : Host).resolve
        (fun _ rt =>
          match rt with
          | RecordType.A => Except.ok ["1.2.3.4"]
          | RecordType.AAAA => Except.error DnsError.dnsError)
        ⟨0, 0, 0, 0⟩).2.ipv6Failure = 1 :=
  (host_resolve_never_fails { name := "h" } _ ⟨0, 0, 0, 0⟩).2.2.2.1
    DnsError.dnsError rfl

lemma hostResolve_v6_exists (h : Host) (r : Resolver) (m : Metrics) :
    ∃ b, (h.resolve r m).1.has_ipv6_address = some b := by
  have hs := hostResolve_v6_isSome h r m
  cases hv : (h.resolve r m).1.has_ipv6_address with
  | none => rw [hv] at hs; simp at hs
  | some b => exact ⟨b, rfl⟩

lemma pyAnd_some (b x : Bool) : pyAnd (some b) x = some (b && x) := by
  cases b <;> simp [pyAnd]

/-- C2: after Entity.resolve, ipv6_ready is the conjunction of the main
host flag with every additional host flag; with no additional hosts it
matches the main flag exactly; and a single false additional flag forces
ipv6_ready to false. -/
theorem entity_resolve_readiness (e : Entity) (r : Resolver) (m : Metrics) :
    ((e.resolve r m).1.ipv6_ready =
       some (optTruthy (e.resolve r m).1.main_host.has_ipv6_address &&
         ((e.resolve r m).1.additional_hosts.all fun h =>
            optTruthy h.has_ipv6_address))) ∧
    (e.additional_hosts = [] →
       ((e.resolve r m).1.ipv6_ready = some true ↔
         (e.resolve r m).1.main_host.has_ipv6_address = some true)) ∧
    (∀ h0 ∈ (e.resolve r m).1.additional_hosts,
       h0.has_ipv6_address = some false →
         (e.resolve r m).1.ipv6_ready = some false) := by
  obtain ⟨b, hb⟩ := hostResolve_v6_exists e.main_host r m
  refine ⟨?_, ?_, ?_⟩
  · simp only [Entity.resolve, hb, pyAnd_some, optTruthy]
    cases b <;> rfl
  · intro hnil
    simp only [Entity.resolve, hnil, resolveHosts, List.all_nil, hb,
      pyAnd_some, Bool.and_true]
  · intro h0 hmem hfalse
    simp only [Entity.resolve] at hmem ⊢
    cases hall :
        ((resolveHosts e.additional_hosts r (e.main_host.resolve r m).2).1.all
          fun h => optTruthy h.has_ipv6_address) with
    | true =>
      have := List.all_eq_true.mp hall h0 hmem
      rw [hfalse] at this
      simp [optTruthy] at this
    | false =>
      simp [hb, pyAnd_some, hall]

/-- C2 witness: an entity whose main host resolves to genuine IPv6 but
whose one additional host fails AAAA ends up not ready. -/
theorem entity_resolve_readiness_witness :
    (({ country := "xx", category := "c", name := "n",
        main_host := { name := "good" },
        additional_hosts := [{ name := "bad" }] } : Entity).resolve
      (fun nm rt =>
        match nm, rt with
        | "good", RecordType.AAAA => Except.ok ["2001:db8::1"]
        | _, _ => Except.error DnsError.dnsError)
      ⟨0, 0, 0, 0⟩).1.ipv6_ready = some false :=
  (entity_resolve_readiness _ _ ⟨0, 0, 0, 0⟩).2.2
    { name := "bad", has_ipv4_address := some false,
      has_ipv6_address := some false }
    (by decide) rfl

/-! Category-level results. -/

/-- C4: ready_percentage raises the division error exactly on an empty
category and returns a value on every non-empty one. -/
theorem ready_percentage_empty_fails (c : Category) :
    (c.total_count = 0 →
       c.ready_percentage = Except.error PyError.zeroDivisionError) ∧
    (c.total_count ≠ 0 → ∃ out, c.ready_percentage = Except.ok out) := by
  constructor
  · intro h0
    simp [Category.ready_percentage, h0]
  · intro h0
    exact ⟨formatPercent ((c.ready_count : ℚ) / (c.total_count : ℚ)),
      by simp [Category.ready_percentage, h0]⟩

/-- C4 witness: the empty category fails, a one-entity category succeeds. -/
theorem ready_percentage_empty_fails_witness :
    ({ category := "c" } : Category).ready_percentage =
      Except.error PyError.zeroDivisionError ∧
    ∃ out,
      ({ category := "c",
         entities := [{ country := "xx", category := "c", name := "n",
                        main_host := { name := "h" },
                        additional_hosts := [],
                        ipv6_ready := some true }] } : Category).ready_percentage =
        Except.ok out :=
  ⟨(ready_percentage_empty_fails { category := "c" }).1 rfl,
   (ready_percentage_empty_fails _).2 (by decide)⟩

/-- C6: on a non-empty category, ready_percentage is the ready ratio times
one hundred rounded to an integer and suffixed with a percent sign; in
particular two ready entities out of three print as 67 percent. -/
theorem ready_percentage_rounding (c : Category) (h : c.total_count ≠ 0) :
    c.ready_percentage =
      Except.ok (toString (roundHalfEven
        ((c.ready_count : ℚ) / (c.total_count : ℚ) * 100)) ++ "%") ∧
    (c.ready_count = 2 → c.total_count = 3 →
       c.ready_percentage = Except.ok "67%") := by
  have hok : c.ready_percentage =
      Except.ok (formatPercent ((c.ready_count : ℚ) / (c.total_count : ℚ))) := by
    simp [Category.ready_percentage, h]
  constructor
  · rw [hok]
    rfl
  · intro h2 h3
    have h1 : ((c.ready_count : ℚ) / (c.total_count : ℚ)) * 100 = 200 / 3 := by
      rw [h2, h3]
      norm_num
    have hfl : Rat.floor (200 / 3 : ℚ) = 66 := by
      rw [show Rat.floor (200 / 3 : ℚ) = ⌊(200 / 3 : ℚ)⌋ from rfl]
      rw [show (200 / 3 : ℚ) = ((200 : ℤ) : ℚ) / ((3 : ℕ) : ℚ) by norm_num]
      rw [Rat.floor_intCast_div_natCast]
      norm_num
    rw [hok]
    unfold formatPercent roundHalfEven
    rw [h1, hfl]
    norm_num
    rfl

/-- C6 witness: a concrete category holding three entities of which two
are ready prints as 67 percent. -/
theorem ready_percentage_rounding_witness :
    ({ category := "c",
       entities :=
         [{ country := "xx", category := "c", name := "a",
            main_host := { name := "ha" }, additional_hosts := [],
            ipv6_ready := some true },
          { country := "xx", category := "c", name := "b",
            main_host := { name := "hb" }, additional_hosts := [],
            ipv6_ready := some true },
          { country := "xx", category := "c", name := "d",
            main_host := { name := "hd" }, additional_hosts := [],
            ipv6_ready := some false }] } : Category).ready_percentage =
      Except.ok "67%" :=
  (ready_percentage_rounding _ (by decide)).2 (by decide) (by decide)

/-- C10: ready_count is bounded by total_count, never counts an entity
whose ipv6_ready is still unknown, and is zero on a fully unresolved
category. -/
theorem ready_count_bounds (c : Category) :
    0 ≤ c.ready_count ∧
    c.ready_count ≤ c.total_count ∧
    c.ready_count ≤
      (c.entities.filter fun e => (e.ipv6_ready).isSome).length ∧
    ((∀ e ∈ c.entities, e.ipv6_ready = none) → c.ready_count = 0) := by
  refine ⟨Nat.zero_le _, List.countP_le_length _, ?_, ?_⟩
  · rw [Category.ready_count, ← List.countP_eq_length_filter]
    refine List.countP_mono_left ?_
    intro e _ he
    cases hv : e.ipv6_ready with
    | none => rw [hv] at he; simp [optTruthy] at he
    | some b => simp
  · intro hall
    rw [Category.ready_count, List.countP_eq_zero]
    intro e hmem
    rw [hall e hmem]
    simp [optTruthy]

/-- C10 witness: a category whose single entity is unresolved has
ready_count zero. -/
theorem ready_count_bounds_witness :
    ({ category := "c",
       entities := [{ country := "xx", category := "c", name := "n",
                      main_host := { name := "h" },
                      additional_hosts := [],
                      ipv6_ready := none }] } : Category).ready_count = 0 :=
  (ready_count_bounds _).2.2.2 (by decide)

/-- C9: country_name short-circuits the sentinel code to a fixed literal
independently of the external collaborator, delegates every other code to
it, and fails when the collaborator does not know the code. -/
theorem country_name_sentinel (cd : CountryData)
    (f g : String → Option String) :
    (cd.country_code = "xx" →
       cd.country_name f = Except.ok "Validation Test" ∧
       cd.country_name f = cd.country_name g) ∧
    (cd.country_code ≠ "xx" →
       (∀ n, f cd.country_code = some n →
          cd.country_name f = Except.ok n) ∧
       (f cd.country_code = none →
          cd.country_name f = Except.error PyError.attributeError)) := by
  constructor
  · intro hx
    simp [CountryData.country_name, hx]
  · intro hx
    constructor
    · intro n hn
      simp [CountryData.country_name, hx, hn]
    · intro hn
      simp [CountryData.country_name, hx, hn]

/-- C9 witness: the sentinel code answers the fixed literal with an empty
collaborator, and the code us delegates to the collaborator. -/
theorem country_name_sentinel_witness :
    ({ country_code := "xx" } : CountryData).country_name (fun _ => none) =
      Except.ok "Validation Test" ∧
    ({ country_code := "us" } : CountryData).country_name
        (fun _ => some "United States") = Except.ok "United States" :=
  ⟨((country_name_sentinel { country_code := "xx" } (fun _ => none)
      (fun _ => none)).1 rfl).1,
   (country_name_sentinel { country_code := "us" }
      (fun _ => some "United States") (fun _ => none)).2 (by decide)
      |>.1 "United States" rfl⟩

/-! Whole-tree resolution. -/

lemma hostResolve_definite (h : Host) (r : Resolver) (m : Metrics) :
    ((h.resolve r m).1).definite = true := by
  simp [Host.definite, hostResolve_v4_isSome, hostResolve_v6_isSome]

lemma resolveHosts_definite (l : List Host) (r : Resolver) (m : Metrics) :
    ∀ h2 ∈ (resolveHosts l r m).1, h2.definite = true := by
  induction l generalizing m with
  | nil => simp [resolveHosts]
  | cons hd tl ih =>
    intro h2 hmem
    simp only [resolveHosts, List.mem_cons] at hmem
    rcases hmem with hmem | hmem
    · rw [hmem]
      exact hostResolve_definite hd r m
    · exact ih _ h2 hmem

lemma entityResolve_definite (e : Entity) (r : Resolver) (m : Metrics) :
    ((e.resolve r m).1).definite = true := by
  obtain ⟨b, hb⟩ := hostResolve_v6_exists e.main_host r m
  simp only [Entity.resolve, Entity.definite, hb, pyAnd_some,
    Option.isSome_some, Bool.true_and, Bool.and_eq_true, List.all_eq_true]
  exact ⟨hostResolve_definite e.main_host r m,
    resolveHosts_definite e.additional_hosts r _⟩

lemma resolveEntities_definite (l : List Entity) (r : Resolver) (m : Metrics) :
    ∀ e2 ∈ (resolveEntities l r m).1, e2.definite = true := by
  induction l generalizing m with
  | nil => simp [resolveEntities]
  | cons hd tl ih =>
    intro e2 hmem
    simp only [resolveEntities, List.mem_cons] at hmem
    rcases hmem with hmem | hmem
    · rw [hmem]
      exact entityResolve_definite hd r m
    · exact ih _ e2 hmem

lemma resolveCategories_definite (l : List (String × Category))
    (r : Resolver) (m : Metrics) :
    ∀ p ∈ (resolveCategories l r m).1, ∀ e ∈ p.2.entities,
      e.definite = true := by
  induction l generalizing m with
  | nil => simp [resolveCategories]
  | cons hd tl ih =>
    intro p hmem
    obtain ⟨k, c⟩ := hd
    simp only [resolveCategories, List.mem_cons] at hmem
    rcases hmem with hmem | hmem
    · intro e he
      rw [hmem] at he
      exact resolveEntities_definite c.entities r m e he
    · exact ih _ p hmem

lemma resolveCountries_definite (l : List (String × CountryData))
    (r : Resolver) (m : Metrics) :
    ∀ p ∈ (resolveCountries l r m).1, ∀ q ∈ p.2.categories,
      ∀ e ∈ q.2.entities, e.definite = true := by
  induction l generalizing m with
  | nil => simp [resolveCountries]
  | cons hd tl ih =>
    intro p hmem
    obtain ⟨k, cd⟩ := hd
    simp only [resolveCountries, List.mem_cons] at hmem
    rcases hmem with hmem | hmem
    · intro q hq e he
      rw [hmem] at hq
      exact resolveCategories_definite cd.categories r m q hq e he
    · exact ih _ p hmem

/-- C5: resolve_all records the completion timestamp and leaves every
entity of the tree fully resolved, so every verdict and every host flag
in the resulting tree is definite. -/
theorem source_resolve_all_complete (s : Source) (r : Resolver) (now : Nat)
    (m : Metrics) :
    (s.resolve_all r now m).1.last_resolved = some now ∧
    (s.resolve_all r now m).1.last_resolved ≠ none ∧
    (∀ p ∈ (s.resolve_all r now m).1.countries_data,
       ∀ q ∈ p.2.categories, ∀ e ∈ q.2.entities,
         e.definite = true) := by
  refine ⟨rfl, by simp [Source.resolve_all], ?_⟩
  intro p hp
  exact resolveCountries_definite s.countries_data r m p hp

/-- C5 witness: resolving a one-entity tree records the timestamp and
yields a fully definite entity. -/
theorem source_resolve_all_complete_witness :
    (wSource.resolve_all wResolver 5 mZero).1.last_resolved = some 5 ∧
    wEntityRes.definite = true :=
  ⟨(source_resolve_all_complete wSource wResolver 5 mZero).1,
   (source_resolve_all_complete wSource wResolver 5 mZero).2.2
     ("xx", { country_code := "xx",
              categories :=
                [("c", { category := "c", entities := [wEntityRes] })] })
     (by decide)
     ("c", { category := "c", entities := [wEntityRes] }) (by decide)
     wEntityRes (by decide)⟩

/-! Registration and tree growth. -/

lemma dictGet_setEntry {α : Type} (l : List (String × α)) (k : String)
    (f : α → α) (key : String) :
    dictGet (setEntry l k f) key =
      if key = k then (dictGet l key).map f else dictGet l key := by
  induction l with
  | nil => simp [setEntry, dictGet]
  | cons hd tl ih =>
    obtain ⟨a, b⟩ := hd
    simp only [setEntry, List.map_cons, dictGet] at ih ⊢
    by_cases hakey : a = key
    · subst hakey
      by_cases hk : a = k
      · subst hk
        simp [dictGet]
      · simp [dictGet, hk]
    · simp [dictGet, hakey, ih]

lemma dictGet_append {α : Type} (l l2 : List (String × α)) (key : String) :
    dictGet (l ++ l2) key =
      match dictGet l key with
      | some v => some v
      | none => dictGet l2 key := by
  induction l with
  | nil => simp [dictGet]
  | cons hd tl ih =>
    obtain ⟨a, b⟩ := hd
    by_cases hakey : a = key <;> simp [dictGet, hakey, ih]

lemma countryRegister_get_self (cd : CountryData) (e : Entity) :
    dictGet (cd.register e).categories e.category =
      some (((dictGet cd.categories e.category).getD
        { category := e.category }).register e) := by
  unfold CountryData.register
  cases hc : dictGet cd.categories e.category with
  | none =>
    simp only [hc, Option.isNone_none, if_true, dictGet_setEntry,
      dictGet_append, hc, if_pos rfl]
    simp [dictGet]
  | some c =>
    simp [hc, dictGet_setEntry]

lemma countryRegister_get_other (cd : CountryData) (e : Entity)
    (t : String) (ht : t ≠ e.category) :
    dictGet (cd.register e).categories t = dictGet cd.categories t := by
  unfold CountryData.register
  cases hc : dictGet cd.categories e.category with
  | none =>
    simp only [hc, Option.isNone_none, if_true, dictGet_setEntry,
      if_neg ht, dictGet_append]
    cases hd : dictGet cd.categories t with
    | none => simp [dictGet, Ne.symm ht]
    | some c => simp
  | some c =>
    simp [hc, dictGet_setEntry, ht]

lemma sourceRegister_get_self (s : Source) (e : Entity) :
    dictGet (s.register_entity e).countries_data e.country =
      some (((dictGet s.countries_data e.country).getD
        { country_code := e.country }).register e) := by
  unfold Source.register_entity
  cases hc : dictGet s.countries_data e.country with
  | none =>
    simp only [hc, Option.isNone_none, if_true, dictGet_setEntry,
      dictGet_append, hc, if_pos rfl]
    simp [dictGet]
  | some cd =>
    simp [hc, dictGet_setEntry]

lemma sourceRegister_get_other (s : Source) (e : Entity)
    (t : String) (ht : t ≠ e.country) :
    dictGet (s.register_entity e).countries_data t =
      dictGet s.countries_data t := by
  unfold Source.register_entity
  cases hc : dictGet s.countries_data e.country with
  | none =>
    simp only [hc, Option.isNone_none, if_true, dictGet_setEntry,
      if_neg ht, dictGet_append]
    cases hd : dictGet s.countries_data t with
    | none => simp [dictGet, Ne.symm ht]
    | some cd => simp
  | some cd =>
    simp [hc, dictGet_setEntry, ht]

lemma preservesTree_refl (s : Source) : preservesTree s s := by
  intro code cd hc
  exact ⟨cd, hc, fun tag c htag => ⟨c, htag, List.prefix_refl _⟩⟩

lemma preservesTree_trans {s t u : Source} (h1 : preservesTree s t)
    (h2 : preservesTree t u) : preservesTree s u := by
  intro code cd hc
  obtain ⟨cd', hcd', hinner⟩ := h1 code cd hc
  obtain ⟨cd'', hcd'', hinner2⟩ := h2 code cd' hcd'
  refine ⟨cd'', hcd'', fun tag c htag => ?_⟩
  obtain ⟨c', hc', hpre⟩ := hinner tag c htag
  obtain ⟨c'', hc'', hpre2⟩ := hinner2 tag c' hc'
  exact ⟨c'', hc'', hpre.trans hpre2⟩

lemma register_step_preserves (s : Source) (e : Entity) :
    preservesTree s (s.register_entity e) := by
  intro code cd hc
  by_cases hcountry : code = e.country
  · subst hcountry
    have hself := sourceRegister_get_self s e
    rw [hc] at hself
    simp only [Option.getD_some] at hself
    refine ⟨cd.register e, hself, ?_⟩
    intro tag c htag
    by_cases htageq : tag = e.category
    · subst htageq
      have hcat := countryRegister_get_self cd e
      rw [htag] at hcat
      simp only [Option.getD_some] at hcat
      exact ⟨c.register e, hcat, ⟨[e], rfl⟩⟩
    · rw [countryRegister_get_other cd e tag htageq]
      exact ⟨c, htag, List.prefix_refl _⟩
  · rw [sourceRegister_get_other s e code hcountry]
    exact ⟨cd, hc, fun tag c htag => ⟨c, htag, List.prefix_refl _⟩⟩

/-- C7: loading records only grows the tree: every country, category and
entity present before an extend_from_json call is still present after it,
each entity list extended only at its end; and registering one entity
appends it as the last element of exactly its country and category node,
first-registered-first. -/
theorem extend_preserves_registration :
    (∀ (s : Source) (rs : List Record) (s' : Source),
       s.extend_from_json rs = Except.ok s' → preservesTree s s') ∧
    (∀ (s : Source) (e : Entity),
       entitiesAt (s.register_entity e) e.country e.category =
         entitiesAt s e.country e.category ++ [e]) := by
  constructor
  · intro s rs
    induction rs generalizing s with
    | nil =>
      intro s' h
      simp only [Source.extend_from_json, Except.ok.injEq] at h
      rw [← h]
      exact preservesTree_refl s
    | cons r t ih =>
      intro s' h
      simp only [Source.extend_from_json] at h
      cases hfj : Entity.from_json r with
      | error err => rw [hfj] at h; simp at h
      | ok e =>
        rw [hfj] at h
        exact preservesTree_trans (register_step_preserves s e) (ih _ s' h)
  · intro s e
    unfold entitiesAt
    rw [sourceRegister_get_self]
    cases hc : dictGet s.countries_data e.country with
    | none =>
      simp only [Option.getD_none]
      rw [countryRegister_get_self]
      simp [dictGet, Category.register]
    | some cd =>
      simp only [Option.getD_some]
      rw [countryRegister_get_self]
      cases htag : dictGet cd.categories e.category with
      | none => simp [Category.register]
      | some c => simp [Category.register]

/-- C7 witness: extending a one-entity source by one record preserves the
tree, and the single registration appends at the end of the entity list. -/
theorem extend_preserves_registration_witness :
    preservesTree wSource wSourceExt ∧
    entitiesAt (wSource.register_entity wEntityB) "xx" "c" =
      entitiesAt wSource "xx" "c" ++ [wEntityB] :=
  ⟨extend_preserves_registration.1 wSource [wRecord] wSourceExt (by rfl),
   extend_preserves_registration.2 wSource wEntityB⟩

lemma asStrList_strs (l : List String) :
    asStrList (l.map JVal.str) = Except.ok l := by
  induction l with
  | nil => rfl
  | cons hd tl ih =>
    simp only [List.map_cons, asStrList, asStr, ih]
    rfl

/-- C8: from_json builds the entity with name defaulting to the main host
name and additional hosts defaulting to empty, and fails with a key error
when any of the three required fields is missing. -/
theorem from_json_defaults (j : Record) :
    (∀ country category mh,
       dictGet j "main_host" = some (JVal.str mh) →
       dictGet j "country" = some (JVal.str country) →
       dictGet j "category" = some (JVal.str category) →
       ((dictGet j "name" = none → dictGet j "additional_hosts" = none →
           Entity.from_json j = Except.ok
             { country := country, category := category, name := mh,
               main_host := { name := mh }, additional_hosts := [] }) ∧
        (∀ nm, dictGet j "name" = some (JVal.str nm) →
           dictGet j "additional_hosts" = none →
           Entity.from_json j = Except.ok
             { country := country, category := category, name := nm,
               main_host := { name := mh }, additional_hosts := [] }) ∧
        (∀ (hosts : List String), dictGet j "name" = none →
           dictGet j "additional_hosts" =
             some (JVal.arr (hosts.map JVal.str)) →
           Entity.from_json j = Except.ok
             { country := country, category := category, name := mh,
               main_host := { name := mh },
               additional_hosts := hosts.map fun h => { name := h } }))) ∧
    (dictGet j "main_host" = none →
       Entity.from_json j = Except.error PyError.keyError) ∧
    (∀ mh, dictGet j "main_host" = some (JVal.str mh) →
       dictGet j "country" = none →
       Entity.from_json j = Except.error PyError.keyError) ∧
    (∀ mh country, dictGet j "main_host" = some (JVal.str mh) →
       dictGet j "country" = some (JVal.str country) →
       dictGet j "category" = none →
       Entity.from_json j = Except.error PyError.keyError) := by
  refine ⟨?_, ?_, ?_, ?_⟩
  · intro country category mh hm hc hcat
    refine ⟨?_, ?_, ?_⟩
    · intro hn ha
      simp only [Entity.from_json, hm, hc, hcat, hn, ha]
      rfl
    · intro nm hn ha
      simp only [Entity.from_json, hm, hc, hcat, hn, ha]
      rfl
    · intro hosts hn ha
      simp only [Entity.from_json, hm, hc, hcat, hn, ha, asStrList_strs]
      rfl
  · intro hm
    simp only [Entity.from_json, hm]
    rfl
  · intro mh hm hc
    simp only [Entity.from_json, hm, hc]
    rfl
  · intro mh country hm hc hcat
    simp only [Entity.from_json, hm, hc, hcat]
    rfl

/-- C8 witness: a record with only the required fields yields the entity
with defaulted name and empty additional hosts. -/
theorem from_json_defaults_witness :
    Entity.from_json wRecord = Except.ok wEntityB :=
  ((from_json_defaults wRecord).1 "xx" "c" "b.example.com" rfl rfl rfl).1
    rfl rfl
